import Mathlib

/-!
Shallow embedding of the birdweather station check tool (`bw-check.py`,
together with the unused `writecsv.py` helper it ships with) and theorems
settling the specification claims about it.

Conventions of the embedding:

* Timezone-aware Python `datetime` values are modelled as integers counting
  microseconds since the epoch.  Comparison and subtraction of aware
  datetimes in Python act on the absolute instant, which this captures
  exactly; calls such as `.astimezone()` change only the displayed zone,
  never the instant, and are therefore no-ops here.
* Python `timedelta` values normalise to `(days, seconds, microseconds)`
  with `0 ≤ seconds < 86400` and `0 ≤ microseconds < 1000000`; the
  `.seconds` field of a delta of `d` microseconds is therefore
  `(d mod 86400·10^6) / 10^6` with floor semantics; on `ℤ` the `%` and `/`
  operators are Euclidean (`Int.emod` / `Int.ediv`), which agree with
  Python's floor semantics for the positive divisors used here.
* Thresholds and hour offsets are modelled as exact rationals.  The
  concrete values the tool wires in (`12`, `1.5`, `-1`, `1`) are exactly
  representable as doubles, and the quantities compared differ by at least
  `1/3600` whenever they differ at all, far above double rounding error,
  so the rational model decides every comparison exactly as the Python
  floats do.
* Fallible Python code is modelled with `Option` / `Except`: an uncaught
  Python exception is an `Except.error` carrying the exception text.
-/

namespace BWCheck

/-- Microseconds per second, the resolution of Python datetimes. -/
def usPerSecond : ℤ := 1000000

/-- Microseconds per day, the normalisation modulus of Python timedeltas. -/
def usPerDay : ℤ := 86400000000

/-- Decimal digit characters of a natural number, with explicit fuel so the
definition is structural (the fuel `n + 1` always suffices).  This is the
decimal rendering that Python's `str` / f-strings / `json.dumps` produce
for a non-negative integer. -/
def natCharsAux : ℕ → ℕ → List Char
  | 0, _ => []
  | fuel + 1, n =>
    if n < 10 then [Char.ofNat (48 + n)]
    else natCharsAux fuel (n / 10) ++ [Char.ofNat (48 + n % 10)]

/-- Decimal digit characters of a natural number. -/
def natChars (n : ℕ) : List Char := natCharsAux (n + 1) n

/-- Decimal string of a natural number, as Python renders counts. -/
def natStr (n : ℕ) : String := String.mk (natChars n)

/-- StationData.online (bw-check.py lines 77-88).  The evaluator takes an
explicit period (threshold in hours); the Python sentinel `period == ''`
(fall back to 1.5 hours) is modelled by `none`.  `datetime.now()` is the
captured instant `now_us`; `replace(microsecond=0)` zeroes the microsecond
field, i.e. floors the instant to a whole second; `.astimezone()` does not
move the instant.  The elapsed `timedelta`'s `.seconds` field — not its
total length — is divided by 3600 and compared against the period. -/
def online (period : Option ℚ) (now_us last_us : ℤ) : Bool :=
  let p : ℚ := period.getD 1.5
  let nowTrunc : ℤ := now_us / usPerSecond * usPerSecond
  let delta : ℤ := nowTrunc - last_us
  let deltaSeconds : ℤ := delta % usPerDay / usPerSecond
  decide ((deltaSeconds : ℚ) / 3600 ≤ p)

/-- True elapsed time from last detection to now, in hours, as an exact
rational: the quantity the specification's "elapsed-hours" refers to. -/
def trueElapsedHours (now_us last_us : ℤ) : ℚ :=
  ((now_us - last_us : ℤ) : ℚ) / 3600000000

/-- Python dict insertion as used for the species mapping: assigning to an
existing key updates its value in place (keeping its position), a new key
is appended at the end. -/
def dictInsert (d : List (String × ℕ)) (k : String) (v : ℕ) : List (String × ℕ) :=
  if d.any (fun p => p.1 = k) then d.map (fun p => if p.1 = k then (k, v) else p)
  else d ++ [(k, v)]

/-- The species dictionary built by StationData.station_data's loop over
the topSpecies entries (lines 51-55), preserving API ranking order. -/
def buildSpecies (raw : List (String × ℕ)) : List (String × ℕ) :=
  raw.foldl (fun d p => dictInsert d p.1 p.2) []

/-- One species line of StationData.plain: the f-string rendering
of a name/count pair. -/
def speciesLine (p : String × ℕ) : String := p.1 ++ ": " ++ natStr p.2

/-- StationData.plain (lines 97-101): the newline-join of the species
lines, in mapping order. -/
def plain (species : List (String × ℕ)) : String :=
  String.intercalate "\n" (species.map speciesLine)

/-- Characters json.dumps (default options, ensure_ascii on) emits
verbatim inside a string literal: printable ASCII other than the quote and
the backslash.  For names made of these characters the encoders below are
exactly json.dumps's output. -/
def jsonSafeChar (c : Char) : Bool :=
  decide (32 ≤ c.toNat) && decide (c.toNat ≤ 126) && !(c == '"') && !(c == '\\')

/-- All characters of the string are ones json.dumps emits verbatim. -/
def jsonSafe (s : String) : Prop := ∀ c ∈ s.data, jsonSafeChar c = true

instance (s : String) : Decidable (jsonSafe s) := by
  unfold jsonSafe
  infer_instance

/-- json.dumps of the species dictionary itself (the /TopHourlySpecies and
/TopDailySpecies payloads, lines 325-326), with the default separators:
comma-space between members, colon-space after each key.  An empty
dictionary renders as a bare pair of braces. -/
def speciesDump (species : List (String × ℕ)) : String :=
  "\x7b" ++
    String.intercalate ", "
      (species.map (fun p => "\"" ++ p.1 ++ "\": " ++ natStr p.2)) ++
    "\x7d"

/-- One item of the JSON-wrapped species list built by StationData.json
(lines 90-95), as json.dumps renders it. -/
def itemStr (p : String × ℕ) : String :=
  "\x7b\"name\": \"" ++ p.1 ++ "\", \"count\": " ++ natStr p.2 ++ "\x7d"

/-- The comma-space-joined item list of the JSON-wrapped species payload. -/
def itemsStr : List (String × ℕ) → String
  | [] => ""
  | [p] => itemStr p
  | p :: q :: rest => itemStr p ++ ", " ++ itemsStr (q :: rest)

/-- json.dumps of StationData.json's wrapper dictionary: the full payload
string of the /json topics (lines 327-328). -/
def jsonDump (json_name : String) (species : List (String × ℕ)) : String :=
  "\x7b\"" ++ json_name ++ "\": [" ++ itemsStr species ++ "]\x7d"

/-- Modelled from the spec: consume an expected literal chunk of the
payload grammar (the repository only encodes; the round-trip claim needs a
decoder for the exact grammar json.dumps produces, built from this and the
two helpers below). -/
def expectLit : List Char → List Char → Option (List Char)
  | [], cs => some cs
  | _ :: _, [] => none
  | l :: ls, c :: cs => if c = l then expectLit ls cs else none

/-- Modelled from the spec: consume the characters of a JSON string
literal up to and including the closing quote. -/
def takeStr : List Char → Option (List Char × List Char)
  | [] => none
  | c :: cs =>
    if c = '"' then some ([], cs)
    else (takeStr cs).map (fun p => (c :: p.1, p.2))

/-- Modelled from the spec: consume a run of decimal digits, most
significant first, onto the accumulator. -/
def takeDigits (acc : ℕ) : List Char → ℕ × List Char
  | [] => (acc, [])
  | c :: cs =>
    if 48 ≤ c.toNat ∧ c.toNat ≤ 57 then takeDigits (10 * acc + (c.toNat - 48)) cs
    else (acc, c :: cs)

/-- Modelled from the spec: decode one name/count object of the species
list (the exact shape json.dumps produces for it). -/
def decodeItem (cs : List Char) : Option ((String × ℕ) × List Char) :=
  match expectLit ("\x7b\"name\": \"").data cs with
  | none => none
  | some cs₁ =>
    match takeStr cs₁ with
    | none => none
    | some (nm, cs₂) =>
      match expectLit (", \"count\": ").data cs₂ with
      | none => none
      | some cs₃ =>
        match takeDigits 0 cs₃ with
        | (n, cs₄) =>
          match expectLit ['\x7d'] cs₄ with
          | some cs₅ => some ((String.mk nm, n), cs₅)
          | none => none

/-- Modelled from the spec: decode the comma-space-separated item list up
to and including the closing bracket of the array; the fuel bounds the
number of items. -/
def decodeItems : ℕ → List Char → Option (List (String × ℕ) × List Char)
  | 0, _ => none
  | fuel + 1, cs =>
    match decodeItem cs with
    | none => none
    | some (p, rest) =>
      match expectLit [']'] rest with
      | some rest' => some ([p], rest')
      | none =>
        match expectLit [',', ' '] rest with
        | some rest₂ => (decodeItems fuel rest₂).map (fun q => (p :: q.1, q.2))
        | none => none

/-- Modelled from the spec: decode a full JSON-wrapped species payload
string back into the wrapper key and the ordered name/count pairs.  The
spec's round-trip property is about this inverse; the repository itself
only encodes. -/
def decodePayload (s : String) : Option (String × List (String × ℕ)) :=
  match expectLit ("\x7b\"").data s.data with
  | none => none
  | some cs₁ =>
    match takeStr cs₁ with
    | none => none
    | some (key, cs₂) =>
      match expectLit (": [").data cs₂ with
      | none => none
      | some cs₃ =>
        match expectLit [']', '\x7d'] cs₃ with
        | some [] => some (String.mk key, [])
        | some (_ :: _) => none
        | none =>
          match decodeItems (cs₃.length + 1) cs₃ with
          | none => none
          | some (items, rest) =>
            match expectLit ['\x7d'] rest with
            | some [] => some (String.mk key, items)
            | some (_ :: _) => none
            | none => none

/-- Specification-side rendering of the plain species payload, following
the spec's words: the newline-joined sequence of name-colon-space-count
lines in mapping order, written as direct recursion over the mapping. -/
def specPlainLines : List (String × ℕ) → String
  | [] => ""
  | [p] => p.1 ++ ": " ++ natStr p.2
  | p :: q :: rest => p.1 ++ ": " ++ natStr p.2 ++ "\n" ++ specPlainLines (q :: rest)

/-- Sunrise and sunset instants for one location and date, as returned by
astral's sun() computation, in microseconds. -/
structure SunTimes where
  sunrise : ℤ
  sunset : ℤ
deriving DecidableEq

/-- between_sunrise_sunset (lines 231-256), parametrised by the outcome of
the astral sun() call: astral raises a ValueError when the sun never
crosses the horizon on the given date (polar conditions), and the function
installs no handler, so that exception propagates out (Except.error).  On
success the two offsets (float hours; exact rationals here) are added as
timedeltas to the sunrise and sunset instants, and the chained strict
comparison sunrise_offset_time < now < sunset_offset_time is returned.
The hard-coded result timezone string passed to sun() affects only the
displayed zone of the returned instants, never the instants themselves,
so it does not appear in the model. -/
def between_sunrise_sunset (sunResult : Except String SunTimes) (now_us : ℤ)
    (rise_offset set_offset : ℚ) : Except String Bool :=
  match sunResult with
  | Except.error e => Except.error e
  | Except.ok s =>
    let sunrise_offset_time : ℚ := (s.sunrise : ℚ) + rise_offset * 3600000000
    let sunset_offset_time : ℚ := (s.sunset : ℚ) + set_offset * 3600000000
    Except.ok (decide (sunrise_offset_time < (now_us : ℚ) ∧ (now_us : ℚ) < sunset_offset_time))

/-- Outcome of the module-level gate check (lines 287-292): fall through
into the run, exit the process (the deliberate skip), or crash on an
uncaught exception. -/
inductive GateDecision where
  | proceed
  | skipExit
  | crash (e : String)
deriving DecidableEq

/-- The module-level daylight-gate check (lines 287-292): when
run.limit_times is the literal string "True" the gate function is
consulted; a True verdict falls through, a False verdict exits, and an
exception raised by the gate function propagates uncaught.  Any other
limit_times value bypasses the gate entirely. -/
def gateCheck (limit_times : String) (sunResult : Except String SunTimes)
    (now_us : ℤ) (rise_offset set_offset : ℚ) : GateDecision :=
  if limit_times = "True" then
    match between_sunrise_sunset sunResult now_us rise_offset set_offset with
    | Except.error e => GateDecision.crash e
    | Except.ok true => GateDecision.proceed
    | Except.ok false => GateDecision.skipExit
  else GateDecision.proceed

/-- A config-file section: ordered key/value pairs as ConfigParser holds
them (all keys the tool uses are already lower case, so ConfigParser's
key normalisation is the identity on them). -/
abbrev ConfigSection := List (String × String)

/-- A config file: ordered named sections. -/
abbrev ConfigStore := List (String × ConfigSection)

/-- First-match lookup of a section by name. -/
def lookupSec : ConfigStore → String → Option ConfigSection
  | [], _ => none
  | (n, d) :: rest, sec => if n = sec then some d else lookupSec rest sec

/-- First-match lookup of a key inside a section. -/
def lookupKey : ConfigSection → String → Option String
  | [], _ => none
  | (k, v) :: rest, key => if k = key then some v else lookupKey rest key

/-- Configuration.new_config (lines 122-138): opens the file in append
mode and writes the one section with the given default variables, so an
existing file keeps all of its content and gains the new section at the
end, and an absent file is created holding just the new section. -/
def new_config (store : Option ConfigStore) (sec : String)
    (vars : ConfigSection) : ConfigStore :=
  store.getD [] ++ [(sec, vars)]

/-- The key-reading loop of Configuration.import_config (lines 175-181):
each expected key of the defaults is read out of the imported section
data; a key absent from the section raises an uncaught KeyError. -/
def readKeys (data : ConfigSection) : ConfigSection → Except String ConfigSection
  | [] => Except.ok []
  | (k, _) :: rest =>
    match lookupKey data k with
    | none => Except.error ("KeyError: " ++ k)
    | some v => (readKeys data rest).map (fun r => (k, v) :: r)

/-- The section-reading part of Configuration.import_config (lines
158-181), run against an existing file: read the wanted section; on a
KeyError append the section with the defaults and read again (when create
is set, lines 162-166) or return None (when it is not); then read each
expected key out of the section data. -/
def importFrom (st : ConfigStore) (sec : String) (vars : ConfigSection)
    (create : Bool) :
    Except String (Option ConfigSection × Option ConfigStore) :=
  match lookupSec st sec with
  | some data => (readKeys data vars).map (fun cfg => (some cfg, some st))
  | none =>
    if create then
      match lookupSec (new_config (some st) sec vars) sec with
      | some data =>
        (readKeys data vars).map
          (fun cfg => (some cfg, some (new_config (some st) sec vars)))
      | none => Except.error ("KeyError: " ++ sec)
    else Except.ok (none, some st)

/-- Configuration.import_config (lines 140-181).  The filesystem state is
an Option ConfigStore (none meaning the file does not exist): an absent
file is first created holding the section with the defaults (when create
is set, lines 153-155) or the method returns None without touching the
filesystem (otherwise); an existing file is then read as in importFrom.
The result is either the text of an uncaught exception, or the returned
config dictionary (none when create is false and the file or section was
absent) together with the file state after the call. -/
def import_config (store : Option ConfigStore) (sec : String)
    (vars : ConfigSection) (create : Bool) :
    Except String (Option ConfigSection × Option ConfigStore) :=
  match store with
  | none =>
    if create then importFrom (new_config none sec vars) sec vars create
    else Except.ok (none, none)
  | some st => importFrom st sec vars create

/-- The parsed body of a successful Birdweather response: the fields
station_data reads out of data, station.  latestDetectionAt is the
timestamp parsed by datetime.fromisoformat (an aware instant); topSpecies
is the ordered list of (commonName, count) pairs. -/
structure StationBody where
  name : String
  latestDetectionAt : ℤ
  topSpecies : List (String × ℕ)
deriving DecidableEq

/-- What the single requests.post call of one StationData fetch does:
either the transport raises a RequestException carrying a message, or an
HTTP response with a status code and a well-formed body arrives (body
parse errors are outside the claims). -/
inductive FetchOutcome where
  | transportError (msg : String)
  | httpResponse (statusCode : ℤ) (body : StationBody)
deriving DecidableEq

/-- StationData.response (lines 58-75): returns the response on a 200 and
None otherwise.  The second component is the status string the method
stores on self (none when it leaves the attribute untouched, which is the
success path): a transport failure stores the ERROR FETCHING DATA text and
a non-200 code stores the BAD RESPONSE text, in both cases returning None
instead of raising. -/
def response (outcome : FetchOutcome) : Option StationBody × Option String :=
  match outcome with
  | FetchOutcome.transportError msg => (none, some ("ERROR FETCHING DATA: " ++ msg))
  | FetchOutcome.httpResponse code body =>
    if code ≠ 200 then (none, some ("BAD RESPONSE: " ++ toString code))
    else (some body, none)

/-- StationData.station_data (lines 40-56): parses the response content.
It evaluates self.response().content unconditionally, so when response()
returned None the attribute access on None raises an AttributeError and
the whole call aborts; on success the name, the parsed timestamp and the
ordered species dictionary are produced. -/
def station_data (outcome : FetchOutcome) :
    Except String (String × ℤ × List (String × ℕ)) :=
  match (response outcome).1 with
  | none => Except.error "AttributeError: NoneType object has no attribute content"
  | some body =>
    Except.ok (body.name, body.latestDetectionAt, buildSpecies body.topSpecies)

/-- The state a fully constructed StationData object carries. -/
structure StationSnapshot where
  station_id : String
  period : Option ℚ
  json_name : String
  name : String
  last_detect : ℤ
  species : List (String × ℕ)
  status_msg : String
deriving DecidableEq

/-- StationData.__init__ (lines 31-38): runs station_data (which performs
the fetch); a fetch failure escapes as the AttributeError, so construction
fails and no object exists.  On success self.status_msg is set to the OK
text afterwards (line 38), unconditionally. -/
def mkStationData (station_id : String) (period : Option ℚ) (json_name : String)
    (outcome : FetchOutcome) : Except String StationSnapshot :=
  (station_data outcome).map
    (fun r => ⟨station_id, period, json_name, r.1, r.2.1, r.2.2, "OK"⟩)

/-- The eight topic suffixes (lines 320-321), in source order. -/
def mqtt_topic_mods : List String :=
  ["/stats", "/TopHourlySpecies", "/TopDailySpecies", "/TopHourlySpecies/json",
   "/TopDailySpecies/json", "/TopHourlySpecies/plain", "/TopDailySpecies/plain", ""]

/-- The /stats payload (lines 322-324), assembled by string concatenation
from the station id and the two rendered timestamps. -/
def statsPayload (station_id last_detect_str time_now_str : String) : String :=
  "\x7b \"stationID\":\"" ++ station_id ++ "\", \"lastDetect\":\"" ++ last_detect_str
    ++ "\", \"timeNow\":\"" ++ time_now_str ++ "\" \x7d"

/-- The eight payloads (lines 322-331), in source order.  strTime is the
str() rendering of a datetime, a stdlib detail abstracted as a function. -/
def mqtt_payloads (hour day : StationSnapshot) (strTime : ℤ → String)
    (time_now_str : String) (online_status_msg : String) : List String :=
  [statsPayload hour.station_id (strTime hour.last_detect) time_now_str,
   speciesDump hour.species,
   speciesDump day.species,
   jsonDump hour.json_name hour.species,
   jsonDump day.json_name day.species,
   plain hour.species,
   plain day.species,
   online_status_msg]

/-- The message batch (lines 332-335): one tuple per topic suffix, pairing
the base-plus-suffix topic with the same-index payload, qos 0 and retain
False; the index loop over the two equal-length lists is a zip. -/
def mqtt_msgs (topic_base : String) (payloads : List String) :
    List (String × String × ℕ × Bool) :=
  List.zipWith (fun m p => (topic_base ++ m, p, 0, false)) mqtt_topic_mods payloads

/-- Environment of one run past the gate: the outcomes of the two fetches,
whether publish.multiple succeeds, the configured station id and base
topic, the captured clock instant, the str() rendering of datetimes, and
the timestamp prepended to the log line. -/
structure RunEnv where
  hourlyOutcome : FetchOutcome
  dailyOutcome : FetchOutcome
  brokerOk : Bool
  station_id : String
  mqtt_topic : String
  now_us : ℤ
  strTime : ℤ → String
  logStamp : String

/-- Observable result of a run that reached the end of the script: the
published batch, the two per-fetch status strings read at lines 302 and
309, the verdict, and the final log line. -/
structure RunResult where
  msgs : List (String × String × ℕ × Bool)
  hourStatus : String
  dayStatus : String
  onlineStatus : String
  logLine : String
deriving DecidableEq

/-- The module-level flow after the gate (lines 293-345): construct the
hourly StationData (period 12, json_name hourlytopspecies) and read its
status_msg into the global, likewise the daily one, derive ONLINE or
OFFLINE from hour.online(), build the eight messages, send them (the
global status_msg is reassigned to the broker status, OK or MQTT ERROR),
and form the log line stamp-colon verdict-dash status.  An uncaught
exception anywhere aborts the run before the log line is written. -/
def runPipeline (env : RunEnv) : Except String RunResult :=
  match mkStationData env.station_id (some 12) "hourlytopspecies" env.hourlyOutcome with
  | Except.error e => Except.error e
  | Except.ok hour =>
    let status₁ := hour.status_msg
    match mkStationData env.station_id (some 12) "dailytopspecies" env.dailyOutcome with
    | Except.error e => Except.error e
    | Except.ok day =>
      let status₂ := day.status_msg
      let online_status_msg :=
        if online hour.period env.now_us hour.last_detect then "ONLINE" else "OFFLINE"
      let time_now_str := env.strTime (env.now_us / usPerSecond * usPerSecond)
      let topic_base := env.mqtt_topic ++ "/" ++ hour.name
      let msgs :=
        mqtt_msgs topic_base
          (mqtt_payloads hour day env.strTime time_now_str online_status_msg)
      let status_msg := if env.brokerOk then "OK" else "MQTT ERROR"
      Except.ok
        ⟨msgs, status₁, status₂, online_status_msg,
          env.logStamp ++ ": " ++ online_status_msg ++ " - " ++ status_msg⟩

/-- The documented run-option defaults (lines 270-273). -/
def config_vars : ConfigSection :=
  [("debug", "False"), ("limit_times", "True"),
   ("sunrise_offset", "-1"), ("sunset_offset", "1")]

/-- The documented broker defaults (lines 260-264). -/
def mqtt_vars : ConfigSection :=
  [("host", "192.168.1.1"), ("port", "1883"), ("username", "mqtt-user"),
   ("password", "mqtt-password"), ("topic", "birdweather")]

/-- The documented remote-endpoint defaults (lines 265-266). -/
def birdweather_vars : ConfigSection :=
  [("station_id", "2265"), ("url", "https://app.birdweather.com/graphql")]

/-- The documented location defaults (lines 267-269). -/
def location_vars : ConfigSection :=
  [("lat", "46.69"), ("lon", "-92.05"), ("tz", "America/Chicago")]

/-- A concrete well-formed station body used in the concrete run
theorems: a named station, a last detection at the epoch, two species. -/
def sampleBody : StationBody :=
  ⟨"Test Station", 0, [("Robin", 5), ("Jay", 2)]⟩

/-- A concrete run environment whose hourly fetch suffers a transport
failure (requests raises) while everything else succeeds; the captured
clock is one hour past the body's last detection. -/
def envHourlyDown : RunEnv :=
  ⟨FetchOutcome.transportError "connection timed out",
   FetchOutcome.httpResponse 200 sampleBody,
   true, "2265", "birdweather", 3600000000, fun _ => "", "stamp"⟩

/-- A concrete run environment whose hourly fetch succeeds and whose
daily fetch returns HTTP 500. -/
def envDaily500 : RunEnv :=
  ⟨FetchOutcome.httpResponse 200 sampleBody,
   FetchOutcome.httpResponse 500 sampleBody,
   true, "2265", "birdweather", 3600000000, fun _ => "", "stamp"⟩

/-- A concrete run environment where both fetches succeed and the broker
publish fails. -/
def envAllOkBrokerFail : RunEnv :=
  ⟨FetchOutcome.httpResponse 200 sampleBody,
   FetchOutcome.httpResponse 200 sampleBody,
   false, "2265", "birdweather", 3600000000, fun _ => "", "stamp"⟩

end BWCheck

namespace BWCheck

theorem natCharsAux_congr :
    ∀ f₁ f₂ n, n < f₁ → n < f₂ → natCharsAux f₁ n = natCharsAux f₂ n := by
  intro f₁
  induction f₁ with
  | zero => intro f₂ n h; omega
  | succ f ih =>
    intro f₂ n h₁ h₂
    match f₂, h₂ with
    | f₂ + 1, _ =>
      simp only [natCharsAux]
      by_cases h10 : n < 10
      · simp [h10]
      · simp only [h10, if_false]
        have hd : n / 10 < n := Nat.div_lt_self (by omega) (by omega)
        rw [ih f₂ (n / 10) (by omega) (by omega)]

theorem natChars_small {n : ℕ} (h : n < 10) :
    natChars n = [Char.ofNat (48 + n)] := by
  simp [natChars, natCharsAux, h]

theorem natChars_big {n : ℕ} (h : 10 ≤ n) :
    natChars n = natChars (n / 10) ++ [Char.ofNat (48 + n % 10)] := by
  have hd : n / 10 < n := Nat.div_lt_self (by omega) (by omega)
  show natCharsAux (n + 1) n = natCharsAux (n / 10 + 1) (n / 10) ++ _
  rw [natCharsAux]
  simp only [Nat.not_lt.mpr h, if_false]
  rw [natCharsAux_congr n (n / 10 + 1) (n / 10) hd (by omega)]

theorem online_sub_day (l s : ℤ) (p : ℚ) (h0 : 0 ≤ s) (h1 : s < 86400) :
    online (some p) ((l + s) * 1000000) (l * 1000000) = decide ((s : ℚ) / 3600 ≤ p) := by
  have key : ((l + s) * 1000000 / usPerSecond * usPerSecond - l * 1000000) % usPerDay
      / usPerSecond = s := by
    unfold usPerSecond usPerDay
    omega
  unfold online
  simp only [Option.getD_some]
  rw [key]

theorem online_day_shift (l s : ℤ) (p : ℚ) (h0 : 0 ≤ s) (h1 : s < 86400) :
    online (some p) ((l + s + 86400) * 1000000) (l * 1000000)
      = decide ((s : ℚ) / 3600 ≤ p) := by
  have key : ((l + s + 86400) * 1000000 / usPerSecond * usPerSecond - l * 1000000) % usPerDay
      / usPerSecond = s := by
    unfold usPerSecond usPerDay
    omega
  unfold online
  simp only [Option.getD_some]
  rw [key]

theorem online_future (l s : ℤ) (p : ℚ) (h0 : 0 < s) (h1 : s < 86400) :
    online (some p) (l * 1000000) ((l + s) * 1000000)
      = decide (((86400 - s : ℤ) : ℚ) / 3600 ≤ p) := by
  have key : (l * 1000000 / usPerSecond * usPerSecond - (l + s) * 1000000) % usPerDay
      / usPerSecond = 86400 - s := by
    unfold usPerSecond usPerDay
    omega
  unfold online
  simp only [Option.getD_some]
  rw [key]

/-- C3 counterexample: with the wired threshold of 12 hours and a last
detection exactly 25 hours before now, the evaluator still reports online,
because the elapsed timedelta's whole-day component is discarded before
the hour conversion; the claimed "online iff elapsed-hours ≤ threshold"
(which demands offline at 25 > 12) is therefore false on the code. -/
theorem c3_counterexample :
    online (some 12) 90000000000 0 = true ∧ ¬ trueElapsedHours 90000000000 0 ≤ 12 := by
  constructor
  · have key : (90000000000 / usPerSecond * usPerSecond - 0) % usPerDay / usPerSecond
        = (3600 : ℤ) := by
      unfold usPerSecond usPerDay
      omega
    unfold online
    simp only [Option.getD_some]
    rw [key]
    simp only [decide_eq_true_eq]
    norm_num
  · norm_num [trueElapsedHours]

/-- C3 (amended): the evaluator compares the elapsed timedelta's
seconds-within-day field against the threshold.  For whole-second elapsed
times inside one day this is exactly "online iff elapsed-hours ≤
threshold", with equality at the threshold reporting online; and the
verdict is invariant under shifting the elapsed time by a whole day,
because the day component of the duration is discarded. -/
theorem c3_amended_threshold_semantics (l s : ℤ) (p : ℚ)
    (h0 : 0 ≤ s) (h1 : s < 86400) :
    (online (some p) ((l + s) * 1000000) (l * 1000000) = true ↔ (s : ℚ) / 3600 ≤ p)
  ∧ online (some p) ((l + s + 86400) * 1000000) (l * 1000000)
      = online (some p) ((l + s) * 1000000) (l * 1000000) := by
  constructor
  · rw [online_sub_day l s p h0 h1]
    simp only [decide_eq_true_eq]
  · rw [online_sub_day l s p h0 h1, online_day_shift l s p h0 h1]

/-- Witness for the amended C3 theorem: at threshold 12 hours and elapsed
time exactly 12 hours (43200 whole seconds) the station is online. -/
theorem c3_amended_witness :
    online (some 12) ((0 + 43200) * 1000000) (0 * 1000000) = true :=
  ((c3_amended_threshold_semantics 0 43200 12 (by norm_num) (by norm_num)).1).mpr
    (by norm_num)

/-- C10 counterexample: a last detection 43199.5 seconds in the future
(t ≈ 11.99986 hours, so the claim's 24 − t exceeds the 12-hour threshold
and it predicts OFFLINE) is nevertheless reported ONLINE, because the
negative duration's sub-second part is truncated by the seconds field
before the hour conversion. -/
theorem c10_counterexample :
    online (some 12) 0 43199500000 = true
  ∧ ¬ 24 - (43199500000 : ℚ) / 3600000000 ≤ 12 := by
  constructor
  · have key : ((0 : ℤ) / usPerSecond * usPerSecond - 43199500000) % usPerDay / usPerSecond
        = (43200 : ℤ) := by
      unfold usPerSecond usPerDay
      omega
    unfold online
    simp only [Option.getD_some]
    rw [key]
    simp only [decide_eq_true_eq]
    norm_num
  · norm_num

/-- C10 (amended): for a last detection a whole number s of seconds in the
future with 0 < s < 86400, the evaluator reports online iff
(86400 − s)/3600 ≤ threshold, i.e. iff (24 − t) ≤ threshold for t = s/3600
hours; in particular one second in the future yields OFFLINE under the
wired 12-hour threshold.  Sub-second future offsets are additionally
truncated by the seconds field (see the counterexample). -/
theorem c10_amended_future_semantics (l s : ℤ) (p : ℚ)
    (h0 : 0 < s) (h1 : s < 86400) :
    (online (some p) (l * 1000000) ((l + s) * 1000000) = true ↔
      ((86400 - s : ℤ) : ℚ) / 3600 ≤ p)
  ∧ online (some 12) (l * 1000000) ((l + 1) * 1000000) = false := by
  constructor
  · rw [online_future l s p h0 h1]
    simp only [decide_eq_true_eq]
  · rw [online_future l 1 12 (by norm_num) (by norm_num)]
    rw [decide_eq_false_iff_not]
    norm_num

/-- Witness for the amended C10 theorem: a detection exactly 12 hours in
the future (43200 whole seconds) reads as online under threshold 12. -/
theorem c10_amended_witness :
    online (some 12) (0 * 1000000) ((0 + 43200) * 1000000) = true :=
  ((c10_amended_future_semantics 0 43200 12 (by norm_num) (by norm_num)).1).mpr
    (by norm_num)

/-- C6: with a normal (non-polar) sunrise and sunset the gate returns true
exactly when the current instant lies strictly between the sunrise shifted
later by the sunrise offset and the sunset shifted later by the sunset
offset (negative offsets widen the window); an instant exactly equal to
either shifted boundary is excluded on both ends. -/
theorem c6_daylight_gate_strict_window :
    (∀ (s : SunTimes) (now_us : ℤ) (r t : ℚ),
      between_sunrise_sunset (Except.ok s) now_us r t = Except.ok true ↔
        ((s.sunrise : ℚ) + r * 3600000000 < (now_us : ℚ) ∧
          (now_us : ℚ) < (s.sunset : ℚ) + t * 3600000000))
  ∧ (∀ (s : SunTimes) (ri ti : ℤ),
      between_sunrise_sunset (Except.ok s) (s.sunrise + ri * 3600000000)
        (ri : ℚ) (ti : ℚ) = Except.ok false)
  ∧ (∀ (s : SunTimes) (ri ti : ℤ),
      between_sunrise_sunset (Except.ok s) (s.sunset + ti * 3600000000)
        (ri : ℚ) (ti : ℚ) = Except.ok false) := by
  refine ⟨?_, ?_, ?_⟩
  · intro s now_us r t
    simp only [between_sunrise_sunset, Except.ok.injEq, decide_eq_true_eq]
  · intro s ri ti
    simp only [between_sunrise_sunset, Except.ok.injEq]
    rw [decide_eq_false_iff_not]
    push_cast
    intro h
    exact lt_irrefl _ h.1
  · intro s ri ti
    simp only [between_sunrise_sunset, Except.ok.injEq]
    rw [decide_eq_false_iff_not]
    push_cast
    intro h
    exact lt_irrefl _ h.2

/-- C5 counterexample: when the solar computation fails (astral raises a
ValueError under polar conditions) and the gate is enabled, the gate check
crashes the run; it does not proceed as "gate disabled for this run" as
the claim requires. -/
theorem c5_counterexample :
    gateCheck "True" (Except.error "ValueError: sun never reaches horizon") 0 (-1) 1
        = GateDecision.crash "ValueError: sun never reaches horizon"
  ∧ gateCheck "True" (Except.error "ValueError: sun never reaches horizon") 0 (-1) 1
        ≠ GateDecision.proceed := by
  constructor
  · rfl
  · intro h
    simp only [gateCheck, between_sunrise_sunset, if_pos rfl] at h
    exact GateDecision.noConfusion h

/-- C5 (amended): a failure of the solar computation propagates uncaught
out of between_sunrise_sunset and through the enabled gate check, aborting
the run before any fetch or publish; the caller never treats it as "gate
disabled for this run". -/
theorem c5_amended_polar_failure_propagates (e : String) (now_us : ℤ) (r t : ℚ) :
    gateCheck "True" (Except.error e) now_us r t = GateDecision.crash e
  ∧ gateCheck "True" (Except.error e) now_us r t ≠ GateDecision.proceed := by
  have h1 : gateCheck "True" (Except.error e) now_us r t = GateDecision.crash e := rfl
  refine ⟨h1, ?_⟩
  rw [h1]
  intro h
  exact GateDecision.noConfusion h

/-- C1: on a transport failure the fetch does record the FetchError status
string on the object, but construction then raises (response() returned
None and station_data dereferences .content on it), so the run aborts with
an AttributeError instead of continuing degraded through composition,
publishing and logging. -/
theorem c1_transport_failure_aborts_run :
    (response (FetchOutcome.transportError "connection timed out")).2
        = some "ERROR FETCHING DATA: connection timed out"
  ∧ runPipeline envHourlyDown
      = Except.error "AttributeError: NoneType object has no attribute content" :=
  ⟨rfl, rfl⟩

/-- C2: a BAD RESPONSE status string captured during the daily fetch never
reaches any log line — the run aborts before logging; and in a run where
both fetches succeed, the final log line carries only the broker publish
status while the per-fetch statuses read at lines 302 and 309 are already
reset to OK, so no fetch error string can flow into the log. -/
theorem c2_fetch_status_never_reaches_log :
    (response (FetchOutcome.httpResponse 500 sampleBody)).2 = some "BAD RESPONSE: 500"
  ∧ runPipeline envDaily500
      = Except.error "AttributeError: NoneType object has no attribute content"
  ∧ (runPipeline envAllOkBrokerFail).map (fun r => (r.logLine, r.hourStatus, r.dayStatus))
      = Except.ok ("stamp: ONLINE - MQTT ERROR", "OK", "OK") := by
  refine ⟨rfl, rfl, ?_⟩
  have key : ((3600000000 : ℤ) / usPerSecond * usPerSecond - 0) % usPerDay / usPerSecond
      = (3600 : ℤ) := by
    unfold usPerSecond usPerDay
    omega
  have honline : online (some 12) 3600000000 0 = true := by
    unfold online
    simp only [Option.getD_some]
    rw [key]
    simp only [decide_eq_true_eq]
    norm_num
  simp only [runPipeline, envAllOkBrokerFail, mkStationData, station_data, response,
    sampleBody, Except.map]
  norm_num [honline]
  rfl

/-- C4: for every pair of snapshot states and every verdict string, the
composition yields exactly the eight (topic, payload, qos 0, retain False)
tuples with the eight specified suffixes appended to the base topic, in
source order with the bare-status topic last; and an empty species mapping
(the safe default of an error snapshot) renders as the empty-but-well-formed
collection or string payloads, never an omitted entry. -/
theorem c4_compose_exactly_eight (hour day : StationSnapshot) (strTime : ℤ → String)
    (tn os base : String) :
    mqtt_msgs (base ++ "/" ++ hour.name) (mqtt_payloads hour day strTime tn os) =
      [(base ++ "/" ++ hour.name ++ "/stats",
         statsPayload hour.station_id (strTime hour.last_detect) tn, 0, false),
       (base ++ "/" ++ hour.name ++ "/TopHourlySpecies", speciesDump hour.species, 0, false),
       (base ++ "/" ++ hour.name ++ "/TopDailySpecies", speciesDump day.species, 0, false),
       (base ++ "/" ++ hour.name ++ "/TopHourlySpecies/json",
         jsonDump hour.json_name hour.species, 0, false),
       (base ++ "/" ++ hour.name ++ "/TopDailySpecies/json",
         jsonDump day.json_name day.species, 0, false),
       (base ++ "/" ++ hour.name ++ "/TopHourlySpecies/plain", plain hour.species, 0, false),
       (base ++ "/" ++ hour.name ++ "/TopDailySpecies/plain", plain day.species, 0, false),
       (base ++ "/" ++ hour.name, os, 0, false)]
  ∧ (mqtt_msgs (base ++ "/" ++ hour.name) (mqtt_payloads hour day strTime tn os)).length = 8
  ∧ speciesDump [] = "\x7b\x7d"
  ∧ jsonDump hour.json_name [] = "\x7b\"" ++ hour.json_name ++ "\": []\x7d"
  ∧ plain [] = "" := by
  refine ⟨?_, rfl, rfl, ?_, rfl⟩
  · simp only [mqtt_msgs, mqtt_payloads, mqtt_topic_mods, List.zipWith,
      String.append_empty]
  · simp only [jsonDump, itemsStr, String.append_empty]
    rw [String.append_assoc]
    rfl

theorem lookupKey_self_of_nodup :
    ∀ (l : ConfigSection) (k v : String),
      (l.map Prod.fst).Nodup → (k, v) ∈ l → lookupKey l k = some v := by
  intro l
  induction l with
  | nil => intro k v _ hm; cases hm
  | cons kv t ih =>
    intro k v hnd hm
    obtain ⟨k₀, v₀⟩ := kv
    simp only [List.map_cons, List.nodup_cons] at hnd
    rcases List.mem_cons.mp hm with heq | ht
    · injection heq with hk hv
      subst hk
      subst hv
      simp [lookupKey]
    · have hk : ¬ k₀ = k := by
        intro he
        subst he
        exact hnd.1 (List.mem_map.mpr ⟨(k₀, v), ht, rfl⟩)
      simp only [lookupKey, hk, if_false]
      exact ih k v hnd.2 ht

theorem readKeys_of_present :
    ∀ (vs data : ConfigSection),
      (∀ kv ∈ vs, lookupKey data kv.1 = some kv.2) → readKeys data vs = Except.ok vs := by
  intro vs data
  induction vs with
  | nil => intro _; rfl
  | cons kv t ih =>
    intro h
    obtain ⟨k, v⟩ := kv
    have hk : lookupKey data k = some v := h (k, v) (List.mem_cons_self _ _)
    simp only [readKeys, hk]
    rw [ih (fun kv hkv => h kv (List.mem_cons_of_mem _ hkv))]
    rfl

theorem readKeys_ok :
    ∀ (vs data : ConfigSection),
      (∀ kv ∈ vs, ∃ v, lookupKey data kv.1 = some v) →
      ∃ cfg, readKeys data vs = Except.ok cfg
        ∧ cfg.map Prod.fst = vs.map Prod.fst
        ∧ ∀ kv ∈ cfg, lookupKey data kv.1 = some kv.2 := by
  intro vs data
  induction vs with
  | nil => intro _; exact ⟨[], rfl, rfl, by intro kv hkv; cases hkv⟩
  | cons kv t ih =>
    intro h
    obtain ⟨k, v⟩ := kv
    obtain ⟨w, hw⟩ := h (k, v) (List.mem_cons_self _ _)
    obtain ⟨cfg, hcfg, hmap, hmem⟩ := ih (fun kv hkv => h kv (List.mem_cons_of_mem _ hkv))
    refine ⟨(k, w) :: cfg, ?_, ?_, ?_⟩
    · simp only [readKeys, hw, hcfg]
      rfl
    · simp [hmap]
    · intro kv hkv
      rcases List.mem_cons.mp hkv with heq | ht
      · subst heq; exact hw
      · exact hmem kv ht

theorem readKeys_self (vs : ConfigSection) (h : (vs.map Prod.fst).Nodup) :
    readKeys vs vs = Except.ok vs :=
  readKeys_of_present vs vs (fun kv hkv => lookupKey_self_of_nodup vs kv.1 kv.2 h hkv)

theorem lookupSec_append_self :
    ∀ (st : ConfigStore) (sec : String) (vars : ConfigSection),
      lookupSec st sec = none → lookupSec (st ++ [(sec, vars)]) sec = some vars := by
  intro st
  induction st with
  | nil => intro sec vars _; simp [lookupSec]
  | cons nd t ih =>
    intro sec vars h
    obtain ⟨n, d⟩ := nd
    by_cases hn : n = sec
    · subst hn; simp [lookupSec] at h
    · simp only [lookupSec, hn, if_false] at h ⊢
      exact ih sec vars h

/-- C7 counterexample: a configuration store whose default section exists
but lacks the debug key makes the run fail with an uncaught KeyError: only
wholly absent files or sections are defaulted, so the claim that the run
never fails purely from missing configuration is false on the code. -/
theorem c7_counterexample :
    import_config (some [("default", [("limit_times", "True")])]) "default"
        config_vars true
      = Except.error "KeyError: debug" := rfl

/-- C7 (amended): an absent file or an absent section is auto-created with
the documented defaults and the values returned are those defaults; when
the section already exists with all expected keys, the store is left
completely unchanged (user edits preserved, creation idempotent) and the
returned values are the stored ones — but a present section missing an
expected key raises an uncaught KeyError (see the counterexample), so
only whole files and sections are defaulted. -/
theorem c7_amended_config_defaults (st : ConfigStore) (sec : String)
    (vars : ConfigSection) (hnodup : (vars.map Prod.fst).Nodup) :
    import_config none sec vars true = Except.ok (some vars, some [(sec, vars)])
  ∧ (lookupSec st sec = none →
      import_config (some st) sec vars true
        = Except.ok (some vars, some (st ++ [(sec, vars)])))
  ∧ (∀ data, lookupSec st sec = some data →
      (∀ kv ∈ vars, ∃ v, lookupKey data kv.1 = some v) →
      ∃ cfg, import_config (some st) sec vars true = Except.ok (some cfg, some st)
        ∧ cfg.map Prod.fst = vars.map Prod.fst
        ∧ ∀ kv ∈ cfg, lookupKey data kv.1 = some kv.2) := by
  have hfound : ∀ (st₀ : ConfigStore) (data : ConfigSection),
      lookupSec st₀ sec = some data →
      importFrom st₀ sec vars true
        = (readKeys data vars).map (fun cfg => (some cfg, some st₀)) := by
    intro st₀ data h
    unfold importFrom
    rw [h]
  refine ⟨?_, ?_, ?_⟩
  · have h1 : lookupSec (new_config none sec vars) sec = some vars := by
      show lookupSec ([] ++ [(sec, vars)]) sec = some vars
      exact lookupSec_append_self [] sec vars rfl
    show importFrom (new_config none sec vars) sec vars true = _
    rw [hfound (new_config none sec vars) vars h1, readKeys_self vars hnodup]
    rfl
  · intro habs
    have h1 : lookupSec (new_config (some st) sec vars) sec = some vars := by
      show lookupSec (st ++ [(sec, vars)]) sec = some vars
      exact lookupSec_append_self st sec vars habs
    show importFrom st sec vars true = _
    unfold importFrom
    rw [habs, if_pos rfl, h1]
    show Except.map (fun cfg => (some cfg, some (new_config (some st) sec vars)))
        (readKeys vars vars) = _
    rw [readKeys_self vars hnodup]
    rfl
  · intro data hdata hkeys
    obtain ⟨cfg, hcfg, hmap, hmem⟩ := readKeys_ok vars data hkeys
    refine ⟨cfg, ?_, hmap, hmem⟩
    show importFrom st sec vars true = _
    rw [hfound st data hdata, hcfg]
    rfl

/-- Witness for the amended C7 theorem: creating the default run-option
section from an absent file returns the documented defaults and the store
holding exactly that section. -/
theorem c7_amended_witness :
    import_config none "default" config_vars true
      = Except.ok (some config_vars, some [("default", config_vars)]) :=
  (c7_amended_config_defaults [] "default" config_vars (by decide)).1

theorem intercalate_go_append :
    ∀ (l : List String) (s a b : String),
      String.intercalate.go (a ++ b) s l = a ++ String.intercalate.go b s l := by
  intro l
  induction l with
  | nil => intro s a b; rfl
  | cons c cs ih =>
    intro s a b
    show String.intercalate.go (a ++ b ++ s ++ c) s cs
        = a ++ String.intercalate.go (b ++ s ++ c) s cs
    rw [String.append_assoc, String.append_assoc, ← String.append_assoc b s c]
    exact ih s a (b ++ s ++ c)

theorem intercalate_cons₂ (s a b : String) (l : List String) :
    String.intercalate s (a :: b :: l) = a ++ s ++ String.intercalate s (b :: l) := by
  show String.intercalate.go a s (b :: l) = a ++ s ++ String.intercalate.go b s l
  show String.intercalate.go (a ++ s ++ b) s l = a ++ s ++ String.intercalate.go b s l
  exact intercalate_go_append l s (a ++ s) b

/-- C9: the plain-text species payload is the newline-joined sequence of
name-colon-space-count lines in mapping order (proved against a direct
recursive rendering of the spec's words), and the Robin/Jay example from
the spec renders exactly as the two expected lines. -/
theorem c9_plain_newline_join :
    (∀ species : List (String × ℕ), plain species = specPlainLines species)
  ∧ plain [("Robin", 5), ("Jay", 2)] = "Robin: 5\nJay: 2" := by
  constructor
  · intro species
    induction species with
    | nil => rfl
    | cons p tail ih =>
      cases tail with
      | nil => rfl
      | cons q rest =>
        show String.intercalate "\n"
            (speciesLine p :: speciesLine q :: rest.map speciesLine) = _
        rw [intercalate_cons₂]
        have hq : String.intercalate "\n" (speciesLine q :: rest.map speciesLine)
            = plain (q :: rest) := rfl
        rw [hq, ih]
        rfl
  · rfl

theorem expectLit_nil (cs : List Char) : expectLit [] cs = some cs := rfl

theorem expectLit_cons_same (c : Char) (ls cs : List Char) :
    expectLit (c :: ls) (c :: cs) = expectLit ls cs := by
  simp [expectLit]

theorem takeStr_append :
    ∀ (nm Y : List Char), (∀ ch ∈ nm, jsonSafeChar ch = true) →
      takeStr (nm ++ '"' :: Y) = some (nm, Y) := by
  intro nm
  induction nm with
  | nil =>
    intro Y _
    simp [takeStr]
  | cons c cs ih =>
    intro Y h
    have hc : jsonSafeChar c = true := h c (List.mem_cons_self _ _)
    have hcq : ¬ c = '"' := by
      intro he
      subst he
      simp [jsonSafeChar] at hc
    simp only [List.cons_append, takeStr, hcq, if_false]
    show Option.map (fun p => (c :: p.1, p.2)) (takeStr (cs ++ '"' :: Y)) = _
    rw [ih Y (fun d hd => h d (List.mem_cons_of_mem _ hd))]
    rfl

theorem digitChar_toNat {n : ℕ} (h : n < 10) : (Char.ofNat (48 + n)).toNat = 48 + n := by
  interval_cases n <;> decide

theorem takeDigits_nondigit (a : ℕ) (ch : Char) (cs : List Char)
    (h : ¬ (48 ≤ ch.toNat ∧ ch.toNat ≤ 57)) :
    takeDigits a (ch :: cs) = (a, ch :: cs) := by
  simp [takeDigits, h]

theorem takeDigits_natChars :
    ∀ (n acc : ℕ) (rest : List Char),
      takeDigits acc (natChars n ++ rest)
        = takeDigits (acc * 10 ^ (natChars n).length + n) rest := by
  intro n
  induction n using Nat.strong_induction_on with
  | _ n ih =>
    intro acc rest
    by_cases h : n < 10
    · rw [natChars_small h]
      have hv : (Char.ofNat (48 + n)).toNat = 48 + n := digitChar_toNat h
      have hcond : 48 ≤ (Char.ofNat (48 + n)).toNat ∧ (Char.ofNat (48 + n)).toNat ≤ 57 := by
        rw [hv]; omega
      simp only [List.cons_append, List.nil_append, takeDigits, hcond, if_pos, hv,
        List.length_singleton]
      have harg : 10 * acc + (48 + n - 48) = acc * 10 ^ 1 + n := by
        simp [pow_one]; omega
      rw [harg]
      rw [if_pos (show 48 ≤ 48 + n ∧ 48 + n ≤ 57 by omega)]
      rfl
    · have h10 : 10 ≤ n := Nat.le_of_not_lt h
      have hd : n / 10 < n := Nat.div_lt_self (by omega) (by omega)
      rw [natChars_big h10, List.append_assoc]
      rw [ih (n / 10) hd acc]
      have hv : (Char.ofNat (48 + n % 10)).toNat = 48 + n % 10 :=
        digitChar_toNat (Nat.mod_lt n (by omega))
      have hcond : 48 ≤ (Char.ofNat (48 + n % 10)).toNat
          ∧ (Char.ofNat (48 + n % 10)).toNat ≤ 57 := by
        rw [hv]
        have := Nat.mod_lt n (show 0 < 10 by omega)
        omega
      simp only [List.cons_append, List.nil_append, takeDigits, hcond, if_pos, hv,
        List.length_append, List.length_singleton]
      have harg : 10 * (acc * 10 ^ (natChars (n / 10)).length + n / 10) + (48 + n % 10 - 48)
          = acc * 10 ^ ((natChars (n / 10)).length + 1) + n := by
        rw [pow_succ]
        have hsub : 48 + n % 10 - 48 = n % 10 := by omega
        rw [hsub]
        have hgen : ∀ m : ℕ, 10 * (m + n / 10) + n % 10 = m * 10 + n := by
          intro m; omega
        calc 10 * (acc * 10 ^ (natChars (n / 10)).length + n / 10) + n % 10
            = acc * 10 ^ (natChars (n / 10)).length * 10 + n :=
              hgen (acc * 10 ^ (natChars (n / 10)).length)
          _ = acc * (10 ^ (natChars (n / 10)).length * 10) + n := by
              rw [Nat.mul_assoc]
      rw [harg]
      rw [if_pos (show 48 ≤ 48 + n % 10 ∧ 48 + n % 10 ≤ 57 by omega)]
      rfl

theorem decodeItem_itemStr (nm : String) (c : ℕ) (rest : List Char)
    (h : ∀ ch ∈ nm.data, jsonSafeChar ch = true) :
    decodeItem ((itemStr (nm, c)).data ++ rest) = some ((nm, c), rest) := by
  have hmk : String.mk nm.data = nm := by cases nm; rfl
  have hns : (natStr c).data = natChars c := rfl
  have hdata : (itemStr (nm, c)).data ++ rest
      = '\x7b' :: '"' :: 'n' :: 'a' :: 'm' :: 'e' :: '"' :: ':' :: ' ' :: '"' ::
          (nm.data ++ ('"' :: ',' :: ' ' :: '"' :: 'c' :: 'o' :: 'u' :: 'n' :: 't' ::
            '"' :: ':' :: ' ' :: (natChars c ++ '\x7d' :: rest))) := by
    simp [itemStr, hns, List.append_assoc]
  have hts := takeStr_append nm.data
    (',' :: ' ' :: '"' :: 'c' :: 'o' :: 'u' :: 'n' :: 't' ::
      '"' :: ':' :: ' ' :: (natChars c ++ '\x7d' :: rest)) h
  have htd : takeDigits 0 (natChars c ++ '\x7d' :: rest) = (c, '\x7d' :: rest) := by
    rw [takeDigits_natChars]
    rw [takeDigits_nondigit _ _ _ (by decide)]
    simp
  rw [hdata]
  simp only [decodeItem, expectLit_cons_same, expectLit_nil, hts, htd, hmk]

theorem itemStr_head (p : String × ℕ) :
    ∃ Z, (itemStr p).data = '\x7b' :: Z := by
  refine ⟨'"' :: 'n' :: 'a' :: 'm' :: 'e' :: '"' :: ':' :: ' ' :: '"' ::
    (p.1.data ++ ('"' :: ',' :: ' ' :: '"' :: 'c' :: 'o' :: 'u' :: 'n' :: 't' ::
      '"' :: ':' :: ' ' :: ((natStr p.2).data ++ ['\x7d']))), ?_⟩
  show (("\x7b\"name\": \"" ++ p.1 ++ "\", \"count\": " ++ natStr p.2 ++ "\x7d")).data = _
  simp [List.append_assoc]

theorem itemsStr_head (p : String × ℕ) (t : List (String × ℕ)) :
    ∃ Z, (itemsStr (p :: t)).data = '\x7b' :: Z := by
  obtain ⟨Z, hZ⟩ := itemStr_head p
  cases t with
  | nil => exact ⟨Z, hZ⟩
  | cons q t' =>
    refine ⟨Z ++ (',' :: ' ' :: (itemsStr (q :: t')).data), ?_⟩
    show (itemStr p ++ ", " ++ itemsStr (q :: t')).data = _
    simp [hZ, List.append_assoc]

theorem itemsStr_length : ∀ (l : List (String × ℕ)), l.length ≤ (itemsStr l).data.length := by
  intro l
  induction l with
  | nil => simp [itemsStr]
  | cons p t ih =>
    obtain ⟨Z, hZ⟩ := itemStr_head p
    cases t with
    | nil =>
      show 1 ≤ (itemStr p).data.length
      rw [hZ]
      simp
    | cons q t' =>
      show (q :: t').length + 1 ≤ ((itemStr p ++ ", " ++ itemsStr (q :: t')).data).length
      simp only [String.data_append, List.length_append, hZ, List.length_cons]
      have hq := ih
      simp only [List.length_cons] at hq ⊢
      omega

theorem decodeItems_itemsStr :
    ∀ (l : List (String × ℕ)) (fuel : ℕ) (rest : List Char),
      l ≠ [] → l.length ≤ fuel → (∀ p ∈ l, jsonSafe p.1) →
      decodeItems fuel ((itemsStr l).data ++ (']' :: rest)) = some (l, rest) := by
  intro l
  induction l with
  | nil => intro fuel rest hne; exact absurd rfl hne
  | cons p tail ih =>
    intro fuel rest _ hlen hsafe
    obtain ⟨f, rfl⟩ : ∃ f, fuel = f + 1 := ⟨fuel - 1, by simp at hlen; omega⟩
    obtain ⟨nm, c⟩ := p
    cases tail with
    | nil =>
      have hitem := decodeItem_itemStr nm c (']' :: rest)
        (hsafe (nm, c) (List.mem_cons_self _ _))
      show decodeItems (f + 1) ((itemStr (nm, c)).data ++ (']' :: rest)) = _
      simp only [decodeItems, hitem, expectLit_cons_same, expectLit_nil]
    | cons q t =>
      have hd : (itemsStr ((nm, c) :: q :: t)).data ++ (']' :: rest)
          = (itemStr (nm, c)).data
              ++ (',' :: ' ' :: ((itemsStr (q :: t)).data ++ (']' :: rest))) := by
        show ((itemStr (nm, c) ++ ", " ++ itemsStr (q :: t)).data) ++ (']' :: rest) = _
        simp [List.append_assoc]
      have hitem := decodeItem_itemStr nm c
        (',' :: ' ' :: ((itemsStr (q :: t)).data ++ (']' :: rest)))
        (hsafe (nm, c) (List.mem_cons_self _ _))
      have hsep : expectLit [']']
          (',' :: ' ' :: ((itemsStr (q :: t)).data ++ (']' :: rest))) = none := by
        simp only [expectLit]
        rw [if_neg (by decide)]
      have hrec := ih f rest (by simp)
        (by simp only [List.length_cons] at hlen ⊢; omega)
        (fun p hp => hsafe p (List.mem_cons_of_mem _ hp))
      rw [hd]
      simp only [decodeItems, hitem, hsep, expectLit_cons_same, expectLit_nil, hrec]
      rfl

/-- C8: encoding the JSON-wrapped species payload and then decoding it
reproduces the wrapper key and the ordered name/count pairs exactly, for
every mapping whose names consist of characters json.dumps emits verbatim
inside string literals (printable ASCII without quote or backslash — the
form species common names take); order is preserved. -/
theorem c8_json_roundtrip (json_name : String) (l : List (String × ℕ))
    (hname : jsonSafe json_name) (hl : ∀ p ∈ l, jsonSafe p.1) :
    decodePayload (jsonDump json_name l) = some (json_name, l) := by
  have hmk : String.mk json_name.data = json_name := by cases json_name; rfl
  cases l with
  | nil =>
    have hdata0 : (jsonDump json_name ([] : List (String × ℕ))).data
        = '\x7b' :: '"' :: (json_name.data
            ++ '"' :: ':' :: ' ' :: '[' :: ']' :: '\x7d' :: []) := by
      simp [jsonDump, itemsStr, List.append_assoc]
    have hts0 := takeStr_append json_name.data
      (':' :: ' ' :: '[' :: ']' :: '\x7d' :: []) hname
    unfold decodePayload
    rw [hdata0]
    simp only [expectLit_cons_same, expectLit_nil, hts0, hmk]
  | cons p t =>
    obtain ⟨Z, hZ⟩ := itemsStr_head p t
    have hdata : (jsonDump json_name (p :: t)).data
        = '\x7b' :: '"' :: (json_name.data ++ ('"' :: ':' :: ' ' :: '[' ::
            ('\x7b' :: (Z ++ (']' :: '\x7d' :: []))))) := by
      simp [jsonDump, hZ, List.append_assoc]
    have hts := takeStr_append json_name.data
      (':' :: ' ' :: '[' :: ('\x7b' :: (Z ++ (']' :: '\x7d' :: [])))) hname
    have hnone : expectLit [']', '\x7d'] ('\x7b' :: (Z ++ (']' :: '\x7d' :: []))) = none := by
      simp only [expectLit]
      rw [if_neg (by decide)]
    have hfuel : (p :: t).length
        ≤ ('\x7b' :: (Z ++ (']' :: '\x7d' :: []))).length + 1 := by
      have hlen := itemsStr_length (p :: t)
      rw [hZ] at hlen
      simp only [List.length_cons, List.length_append] at hlen ⊢
      omega
    have hdec : decodeItems (('\x7b' :: (Z ++ (']' :: '\x7d' :: []))).length + 1)
        ('\x7b' :: (Z ++ (']' :: '\x7d' :: []))) = some (p :: t, ['\x7d']) := by
      have hform : (itemsStr (p :: t)).data ++ (']' :: ['\x7d'])
          = '\x7b' :: (Z ++ (']' :: '\x7d' :: [])) := by
        rw [hZ]
        rfl
      rw [← hform] at hfuel ⊢
      exact decodeItems_itemsStr (p :: t) _ ['\x7d'] (by simp) hfuel hl
    unfold decodePayload
    rw [hdata]
    simp only [List.cons_append, expectLit_cons_same, expectLit_nil, hts, hnone,
      hdec, hmk]

/-- Witness for C8 at the Robin/Jay example payload with the hourly
wrapper key. -/
theorem c8_json_roundtrip_witness :
    decodePayload (jsonDump "hourlytopspecies" [("Robin", 5), ("Jay", 2)])
      = some ("hourlytopspecies", [("Robin", 5), ("Jay", 2)]) :=
  c8_json_roundtrip "hourlytopspecies" [("Robin", 5), ("Jay", 2)]
    (by decide) (by decide)

end BWCheck
